import Mathlib

/-!
Verification of the restriction-search pipeline (semantic-search-intro).

The definitions below are a shallow embedding of the Python source:
* `get_filters` / `get_filters_v2` embed the hierarchical hs-code filter
  builders of `v3.py` and `semantic_searchv2.py` over a model of Weaviate
  filters (`WFilter`) with LIKE-glob and equality primitives;
* `process_row` embeds `v3.py`'s per-item disambiguation: the empty-candidate
  short-circuit, the finish-reason guard, and the comma-token response parser;
* `batchReport` embeds the aggregation loop of `restrict_from_csv`.

Wall-clock times measured in the source are passed in as parameters
(`tN`, `tR`, `tP`); token counts come from the language-model result.
Values that the source sets to the string "NA" are modelled as `Option.none`.
-/

namespace RestrictionSearch

/-- `config.py` line 1: the universal wildcard hs-code. -/
def WILDCARD : String := "0"

/-- Python `s.replace(c, "")` for a single character: drop every occurrence. -/
def removeChar (c : Char) (s : String) : String :=
  String.mk (s.data.filter (fun d => d != c))

/-- Python `s.split(",")`: split on every comma, keeping empty pieces;
the empty string yields `[[]]`, exactly as in Python. -/
def splitComma : List Char → List (List Char)
  | [] => [[]]
  | c :: t =>
    if c = ',' then [] :: splitComma t
    else
      match splitComma t with
      | [] => [[c]]
      | h :: r => (c :: h) :: r

/-- v3.py lines 264-269: `content.replace("\n", "").replace(" ", "").split(",")`. -/
def tokensOf (content : String) : List String :=
  (splitComma ((removeChar ' ' (removeChar '\x0a' content)).data)).map String.mk

/-- Python `s.lower()` (ASCII range, which covers every string the source
compares against). -/
def lowerStr (s : String) : String :=
  String.mk (s.data.map Char.toLower)

/-- Python substring test `needle in hay` on character lists. -/
def containsSub (needle : List Char) : List Char → Bool
  | [] => needle.isEmpty
  | c :: t => needle.isPrefixOf (c :: t) || containsSub needle t

/-- Python `needle in hay` for strings. -/
def strIn (needle hay : String) : Bool :=
  containsSub needle.data hay.data

/-- v3.py lines 278-282: the three "no restriction applies" phrase tests,
each a substring check against `choice.lower()`. -/
def nonePhrase (choice : String) : Bool :=
  strIn ("norestrictionsapply") (lowerStr choice)
    || strIn ("doesnotapply") (lowerStr choice)
    || strIn ("nocategoryapplies") (lowerStr choice)

/-- Value of an ASCII digit list read in base 10. -/
def digitsToNat (l : List Char) : ℕ :=
  l.foldl (fun n c => 10 * n + (c.toNat - 48)) 0

/-- Python `int(s)` returning `none` where Python raises `ValueError`:
an optional sign followed by a nonempty digit string.  (Python additionally
tolerates surrounding whitespace and underscore group separators; the
tokens reaching this call have had `"\n"` and `" "` removed already.) -/
def pyInt (s : String) : Option ℤ :=
  match s.data with
  | [] => none
  | '+' :: rest =>
    if rest.isEmpty then none
    else if rest.all Char.isDigit then some ((digitsToNat rest : ℕ) : ℤ) else none
  | '-' :: rest =>
    if rest.isEmpty then none
    else if rest.all Char.isDigit then some (-((digitsToNat rest : ℕ) : ℤ)) else none
  | l =>
    if l.all Char.isDigit then some ((digitsToNat l : ℕ) : ℤ) else none

/-- Python list indexing `l[i]` with negative-index wraparound, `none` where
Python raises `IndexError`. -/
def pyGet {α : Type} (l : List α) (i : ℤ) : Option α :=
  if 0 ≤ i then l.get? i.toNat
  else if 0 ≤ i + l.length then l.get? (i + l.length).toNat
  else none

/-! ## Weaviate filter model -/

/-- The fragment of Weaviate's filter language the source builds:
`Filter(path="hs_code").like(pat)`, `.equal(v)`, and `|`. -/
inductive WFilter where
  | like (pattern : String)
  | eq (value : String)
  | or (a b : WFilter)

/-- Fuelled LIKE-glob matcher: `*` matches any run of characters, `?` exactly
one, anything else itself.  The fuel only serves structural recursion;
`globMatch` supplies enough for every input. -/
def globFuel : ℕ → List Char → List Char → Bool
  | 0, _, _ => false
  | _ + 1, [], s => s.isEmpty
  | f + 1, c :: p, s =>
    if c = '*' then
      globFuel f p s ||
        (match s with
         | [] => false
         | _ :: t => globFuel f (c :: p) t)
    else
      match s with
      | [] => false
      | d :: t => (if c = '?' then true else c == d) && globFuel f p t

/-- Weaviate LIKE semantics over character lists. -/
def globMatch (p s : List Char) : Bool :=
  globFuel (p.length + s.length + 2) p s

/-- Weaviate LIKE on strings. -/
def likeMatch (pattern value : String) : Bool :=
  globMatch pattern.data value.data

/-- Whether a stored `hs_code` value satisfies a filter. -/
def WFilter.matches : WFilter → String → Bool
  | .like pat, v => likeMatch pat v
  | .eq x, v => v == x
  | .or a b, v => a.matches v || b.matches v

/-- v3.py lines 124-127 (and the identical loop of semantic_searchv2.py):
`built_code = ""; for c in code: built_code += c; filters = filters | equal(built_code)`. -/
def prefixClauses (built : String) (f : WFilter) : List Char → WFilter
  | [] => f
  | c :: rest => prefixClauses (built.push c) (WFilter.or f (WFilter.eq (built.push c))) rest

/-- v3.py `get_filters` (lines 106-128): `like(code + "*") | equal(WILDCARD)`
followed by one equality clause per prefix of `code`. -/
def get_filters (code : String) : WFilter :=
  prefixClauses ("") (WFilter.or (WFilter.like (code ++ "*")) (WFilter.eq WILDCARD)) code.data

/-- semantic_searchv2.py `get_filters` (lines 91-111): identical except the
`equal(WILDCARD)` clause is commented out. -/
def get_filters_v2 (code : String) : WFilter :=
  prefixClauses ("") (WFilter.like (code ++ "*")) code.data

/-! ## Disambiguation engine (v3.py `process_row`) -/

/-- One input row of the query csv: `row["hs_code"]`, `row["description"]`. -/
structure InputRow where
  hs_code : String
  description : String
deriving DecidableEq

/-- One Weaviate response object: its stored properties and the returned
similarity distance (`object.metadata.distance`). -/
structure RObject where
  hs_code : String
  item : String
  restriction_text : String
  distance : ℚ
deriving DecidableEq

/-- The parsed OpenAI chat-completion result: finish flag, message content and
the three usage counters (v3.py lines 257-262). -/
structure LMResult where
  finish_reason : String
  content : String
  prompt_tokens : ℕ
  completion_tokens : ℕ
  total_tokens : ℕ
deriving DecidableEq

/-- One output row appended to `new_rows`.  Fields the source fills with the
string "NA" are `Option.none` here. -/
structure OutputRow where
  hs_code : String
  description : String
  restricted_codes : String
  restricted_item : String
  restriction : String
  distance : ℚ
  time_to_get_neighbors : ℚ
  time_to_get_response : Option ℚ
  time_to_process_row : ℚ
  prompt_tokens : Option ℕ
  completion_tokens : Option ℕ
  total_tokens : Option ℕ
deriving DecidableEq

/-- The non-row components of `process_row`'s return tuple. -/
structure Metrics where
  time_to_get_neighbors : ℚ
  time_to_get_response : Option ℚ
  time_to_process_row : ℚ
  prompt_tokens : Option ℕ
  completion_tokens : Option ℕ
  total_tokens : Option ℕ
deriving DecidableEq

/-- The three `raise Exception(...)` sites of `process_row` plus the implicit
`IndexError` a negative wrapped index can produce at line 313. -/
inductive PError where
  | incompleteGeneration
  | malformed
  | outOfBounds
  | indexError
deriving DecidableEq

/-- The row with empty restriction fields and distance 0 built at
v3.py lines 232-247 and 283-298. -/
def noRestrictionRow (row : InputRow) (tN : ℚ) (tR : Option ℚ) (tP : ℚ)
    (pt ct tt : Option ℕ) : OutputRow :=
  { hs_code := row.hs_code
    description := row.description
    restricted_codes := ""
    restricted_item := ""
    restriction := ""
    distance := 0
    time_to_get_neighbors := tN
    time_to_get_response := tR
    time_to_process_row := tP
    prompt_tokens := pt
    completion_tokens := ct
    total_tokens := tt }

/-- The confirmed-restriction row built from `response_objects[choice - 1]`
at v3.py lines 314-329. -/
def confirmedRow (row : InputRow) (o : RObject) (tN tR tP : ℚ) (pt ct tt : ℕ) : OutputRow :=
  { hs_code := row.hs_code
    description := row.description
    restricted_codes := o.hs_code
    restricted_item := o.item
    restriction := o.restriction_text
    distance := o.distance
    time_to_get_neighbors := tN
    time_to_get_response := some tR
    time_to_process_row := tP
    prompt_tokens := some pt
    completion_tokens := some ct
    total_tokens := some tt }

/-- The metrics tuple returned on the branches that invoked OpenAI
(v3.py lines 299-307 and 332-340). -/
def fullMetrics (lm : LMResult) (tN tR tP : ℚ) : Metrics :=
  { time_to_get_neighbors := tN
    time_to_get_response := some tR
    time_to_process_row := tP
    prompt_tokens := some lm.prompt_tokens
    completion_tokens := some lm.completion_tokens
    total_tokens := some lm.total_tokens }

/-- The metrics tuple returned on the empty-candidate branch
(v3.py line 248): arbitration time and token counts are "NA". -/
def emptyMetrics (tN tP : ℚ) : Metrics :=
  { time_to_get_neighbors := tN
    time_to_get_response := none
    time_to_process_row := tP
    prompt_tokens := none
    completion_tokens := none
    total_tokens := none }

/-- The token loop of v3.py lines 271-329.  Each token: strip every period,
skip `""` and `"0"`, try `int`; a non-integer is either a none-applies phrase
(append the empty row and return at once, keeping `acc`) or a fatal
malformed-response error; an integer greater than the candidate count is a
fatal out-of-bounds error; otherwise `response_objects[choice - 1]` (Python
wraparound indexing) yields one confirmed row.  `objs.length` equals
`len(restricted_items)` since `restricted_items` holds one label per object. -/
def choiceLoop (row : InputRow) (objs : List RObject) (tN tR tP : ℚ) (pt ct tt : ℕ) :
    List String → List OutputRow → Except PError (List OutputRow)
  | [], acc => .ok acc
  | tok :: rest, acc =>
    if removeChar '.' tok = "" ∨ removeChar '.' tok = "0" then
      choiceLoop row objs tN tR tP pt ct tt rest acc
    else
      match pyInt (removeChar '.' tok) with
      | none =>
        if nonePhrase (removeChar '.' tok) then
          .ok (acc ++ [noRestrictionRow row tN (some tR) tP (some pt) (some ct) (some tt)])
        else
          .error .malformed
      | some z =>
        if (objs.length : ℤ) < z then
          .error .outOfBounds
        else
          match pyGet objs (z - 1) with
          | none => .error .indexError
          | some o =>
            choiceLoop row objs tN tR tP pt ct tt rest
              (acc ++ [confirmedRow row o tN tR tP pt ct tt])

/-- v3.py `process_row` (lines 203-340).  `objs` is the ranked Weaviate
response, `lm` the OpenAI result, `tN`/`tR`/`tP` the three measured
wall-clock durations.  `(objs.map (fun o => o.item))` is the
`restricted_items` list built at lines 225-228. -/
def process_row (row : InputRow) (objs : List RObject) (lm : LMResult)
    (tN tR tP : ℚ) : Except PError (List OutputRow × Metrics) :=
  if (objs.map (fun o => o.item)).length = 0 then
    .ok ([noRestrictionRow row tN none tP none none none], emptyMetrics tN tP)
  else if lm.finish_reason ≠ "stop" then
    .error .incompleteGeneration
  else
    match choiceLoop row objs tN tR tP lm.prompt_tokens lm.completion_tokens
        lm.total_tokens (tokensOf lm.content) [] with
    | .error e => .error e
    | .ok rows => .ok (rows, fullMetrics lm tN tR tP)

/-- The output rows the parsing pipeline predicts for a well-formed response:
per surviving token, in order, the candidate the token's integer selects
(duplicates preserved). -/
def expectedRows (row : InputRow) (objs : List RObject) (tN tR tP : ℚ)
    (pt ct tt : ℕ) (toks : List String) : List OutputRow :=
  toks.filterMap (fun tok =>
    if removeChar '.' tok = "" ∨ removeChar '.' tok = "0" then none
    else
      match pyInt (removeChar '.' tok) with
      | none => none
      | some z => (pyGet objs (z - 1)).map (fun o => confirmedRow row o tN tR tP pt ct tt))

/-! ## Batch aggregation (v3.py `restrict_from_csv`, lines 368-434) -/

/-- The `if x != "NA": xs.append(x)` accumulation of lines 407-418 for a
rational-valued per-item field. -/
def gatherQ (f : Metrics → Option ℚ) : List Metrics → List ℚ
  | [] => []
  | m :: rest =>
    match f m with
    | some x => x :: gatherQ f rest
    | none => gatherQ f rest

/-- The same accumulation for a token-count field. -/
def gatherN (f : Metrics → Option ℕ) : List Metrics → List ℕ
  | [] => []
  | m :: rest =>
    match f m with
    | some x => x :: gatherN f rest
    | none => gatherN f rest

/-- `sum(xs) / len(xs)` for rationals. -/
def avgQ (l : List ℚ) : ℚ := l.sum / l.length

/-- `sum(xs) / len(xs)` for token counts. -/
def avgN (l : List ℕ) : ℚ := ((l.sum : ℕ) : ℚ) / l.length

/-- The six averages printed at v3.py lines 421-434. -/
structure BatchReport where
  avg_time_to_get_neighbors : ℚ
  avg_time_to_get_response : ℚ
  avg_time_to_process_row : ℚ
  avg_prompt_tokens : ℚ
  avg_completion_tokens : ℚ
  avg_total_tokens : ℚ

/-- Batch aggregation over the per-item metrics tuples.  The neighbor and
whole-row times are never "NA" in the source, so their guard always appends. -/
def batchReport (ms : List Metrics) : BatchReport :=
  { avg_time_to_get_neighbors := avgQ (ms.map (fun m => m.time_to_get_neighbors))
    avg_time_to_get_response := avgQ (gatherQ (fun m => m.time_to_get_response) ms)
    avg_time_to_process_row := avgQ (ms.map (fun m => m.time_to_process_row))
    avg_prompt_tokens := avgN (gatherN (fun m => m.prompt_tokens) ms)
    avg_completion_tokens := avgN (gatherN (fun m => m.completion_tokens) ms)
    avg_total_tokens := avgN (gatherN (fun m => m.total_tokens) ms) }

/-! ## Concrete fixtures used by witnesses and counterexamples -/

/-- A sample input row. -/
def sampleRow : InputRow := { hs_code := "0207", description := "chicken" }

/-- A sample catalog object. -/
def sampleObj : RObject :=
  { hs_code := "0207", item := "knives", restriction_text := "sharp things", distance := 1 / 2 }

/-- A second sample catalog object. -/
def sampleObj2 : RObject :=
  { hs_code := "02", item := "poultry", restriction_text := "bird flu rule", distance := 2 / 3 }

/-- A third sample catalog object. -/
def sampleObj3 : RObject :=
  { hs_code := "0", item := "weapons", restriction_text := "armament rule", distance := 3 / 4 }

/-- A normally-finished language-model result with the given content. -/
def lmWith (c : String) : LMResult :=
  { finish_reason := "stop", content := c, prompt_tokens := 10,
    completion_tokens := 5, total_tokens := 15 }

/-! ## Helper lemmas: list and string basics -/

lemma nil_isPrefixOf (bs : List Char) : ([] : List Char).isPrefixOf bs = true := by
  cases bs <;> rfl

lemma cons_isPrefixOf_nil (a : Char) (as : List Char) : (a :: as).isPrefixOf [] = false := rfl

lemma cons_isPrefixOf_cons (a b : Char) (as bs : List Char) :
    (a :: as).isPrefixOf (b :: bs) = (a == b && as.isPrefixOf bs) := rfl

lemma data_ne_nil_of_ne_empty {s : String} (h : s ≠ "") : s.data ≠ [] := by
  intro hc
  exact h (String.ext hc)

/-! ## Helper lemmas: LIKE-glob and filter semantics -/

lemma globFuel_star_nil (s : List Char) : ∀ f : ℕ, s.length + 2 ≤ f → globFuel f ['*'] s = true := by
  induction s with
  | nil =>
    intro f hf
    match f, hf with
    | f + 2, _ => rfl
  | cons d t ih =>
    intro f hf
    match f, hf with
    | f + 2, hf =>
      have ht : t.length + 2 ≤ f + 1 := by
        simp only [List.length_cons] at hf
        omega
      have hstep : globFuel (f + 2) ['*'] (d :: t) = (false || globFuel (f + 1) ['*'] t) := rfl
      rw [hstep, Bool.false_or]
      exact ih (f + 1) ht

lemma globFuel_noMeta_star (p : List Char) (hp : ∀ c ∈ p, c ≠ '*' ∧ c ≠ '?') :
    ∀ (s : List Char) (f : ℕ), p.length + s.length + 2 ≤ f →
      globFuel f (p ++ ['*']) s = p.isPrefixOf s := by
  induction p with
  | nil =>
    intro s f hf
    rw [List.nil_append, globFuel_star_nil s f (by omega), nil_isPrefixOf]
  | cons c p' ih =>
    intro s f hf
    have hc : c ≠ '*' ∧ c ≠ '?' := hp c (List.mem_cons_self c p')
    match f, hf with
    | f + 1, hf =>
      cases s with
      | nil =>
        simp only [List.cons_append, globFuel, if_neg hc.1, cons_isPrefixOf_nil]
      | cons d t =>
        have hrec := ih (fun x hx => hp x (List.mem_cons_of_mem c hx)) t f
          (by simp only [List.length_cons] at hf ⊢; omega)
        simp only [List.cons_append, globFuel, if_neg hc.1, if_neg hc.2,
          cons_isPrefixOf_cons, List.append_eq, hrec]

lemma digit_not_meta (c : Char) (h : c.isDigit = true) : c ≠ '*' ∧ c ≠ '?' := by
  constructor <;> rintro rfl <;> exact absurd h (by decide)

lemma likeMatch_star (code x : String) (h : ∀ ch ∈ code.data, ch.isDigit = true) :
    likeMatch (code ++ "*") x = code.data.isPrefixOf x.data := by
  unfold likeMatch globMatch
  rw [String.data_append]
  rw [show ("*" : String).data = ['*'] from rfl]
  have hm : ∀ c ∈ code.data, c ≠ '*' ∧ c ≠ '?' := fun c hc => digit_not_meta c (h c hc)
  exact globFuel_noMeta_star code.data hm x.data _
    (by simp only [List.length_append, List.length_cons, List.length_nil]; omega)

lemma prefixClauses_matches (cs : List Char) : ∀ (b : String) (f : WFilter) (x : String),
    (prefixClauses b f cs).matches x = true ↔
      (f.matches x = true ∨ ∃ k, 1 ≤ k ∧ k ≤ cs.length ∧ x.data = b.data ++ cs.take k) := by
  induction cs with
  | nil =>
    intro b f x
    simp only [prefixClauses, List.length_nil, List.take_nil]
    constructor
    · exact Or.inl
    · rintro (h | ⟨k, h1, h2, _⟩)
      · exact h
      · omega
  | cons c cs' ih =>
    intro b f x
    have hpush : (b.push c).data = b.data ++ [c] := rfl
    simp only [prefixClauses]
    rw [ih (b.push c) (WFilter.or f (WFilter.eq (b.push c))) x]
    constructor
    · rintro (hf | ⟨k, h1, h2, h3⟩)
      · simp only [WFilter.matches, Bool.or_eq_true, beq_iff_eq] at hf
        rcases hf with hf | hf
        · exact Or.inl hf
        · refine Or.inr ⟨1, by omega, by simp only [List.length_cons]; omega, ?_⟩
          rw [hf, hpush]
          rfl
      · refine Or.inr ⟨k + 1, by omega, by simp only [List.length_cons]; omega, ?_⟩
        rw [hpush, List.append_assoc] at h3
        exact h3
    · rintro (hf | ⟨k, h1, h2, h3⟩)
      · refine Or.inl ?_
        simp only [WFilter.matches, Bool.or_eq_true]
        exact Or.inl hf
      · match k, h1 with
        | 1, _ =>
          refine Or.inl ?_
          simp only [WFilter.matches, Bool.or_eq_true, beq_iff_eq]
          exact Or.inr (String.ext h3)
        | j + 2, _ =>
          refine Or.inr ⟨j + 1, by omega, by simp only [List.length_cons] at h2; omega, ?_⟩
          rw [hpush, List.append_assoc]
          exact h3

lemma get_filters_v2_char (c x : String) (h : ∀ ch ∈ c.data, ch.isDigit = true) :
    (get_filters_v2 c).matches x = true ↔
      (c.data.isPrefixOf x.data = true ∨ ∃ k, 1 ≤ k ∧ k ≤ c.data.length ∧ x.data = c.data.take k) := by
  unfold get_filters_v2
  rw [prefixClauses_matches]
  simp only [WFilter.matches, likeMatch_star c x h]
  simp only [List.nil_append]

lemma get_filters_v3_char (c x : String) (h : ∀ ch ∈ c.data, ch.isDigit = true) :
    (get_filters c).matches x = true ↔
      (c.data.isPrefixOf x.data = true
        ∨ (∃ k, 1 ≤ k ∧ k ≤ c.data.length ∧ x.data = c.data.take k)
        ∨ x = WILDCARD) := by
  unfold get_filters
  rw [prefixClauses_matches]
  simp only [WFilter.matches, likeMatch_star c x h, Bool.or_eq_true, beq_iff_eq]
  simp only [List.nil_append]
  constructor
  · rintro ((hpre | hw) | hex)
    · exact Or.inl hpre
    · exact Or.inr (Or.inr hw)
    · exact Or.inr (Or.inl hex)
  · rintro (hpre | hex | hw)
    · exact Or.inl (Or.inl hpre)
    · exact Or.inr hex
    · exact Or.inl (Or.inr hw)


/-- C2: for a non-empty digit code `c`, `get_filters c` matches exactly the
catalog codes that start with `c`, the codes equal to some prefix of `c`
(length 1 to `len c`), and the WILDCARD code "0". -/
theorem get_filters_characterization (c x : String) (h1 : c ≠ "")
    (h2 : ∀ ch ∈ c.data, ch.isDigit = true) :
    (get_filters c).matches x = true ↔
      (c.data.isPrefixOf x.data = true
        ∨ (∃ k, 1 ≤ k ∧ k ≤ c.data.length ∧ x.data = c.data.take k)
        ∨ x = WILDCARD) :=
  get_filters_v3_char c x h2

/-- Witness for C2 at code "0207" and catalog code "020". -/
theorem get_filters_characterization_witness :
    (("0207" : String) ≠ "" ∧ (∀ ch ∈ ("0207" : String).data, ch.isDigit = true))
      ∧ ((get_filters ("0207")).matches ("020") = true ↔
          (("0207" : String).data.isPrefixOf ("020" : String).data = true
            ∨ (∃ k, 1 ≤ k ∧ k ≤ ("0207" : String).data.length
                ∧ ("020" : String).data = ("0207" : String).data.take k)
            ∨ ("020" : String) = WILDCARD)) :=
  ⟨⟨by decide, by decide⟩, get_filters_characterization ("0207") ("020") (by decide) (by decide)⟩



/-- C10: the v3 and v2 filter builders agree on every catalog code when the
non-empty digit target code begins with '0'; otherwise they differ exactly on
the WILDCARD record "0", which v3 matches and v2 does not. -/
theorem filters_v2_v3_relation (code x : String) (h1 : code ≠ "")
    (h2 : ∀ ch ∈ code.data, ch.isDigit = true) :
    (code.data.head? = some '0' →
        (get_filters code).matches x = (get_filters_v2 code).matches x) ∧
    (code.data.head? ≠ some '0' →
        (get_filters code).matches WILDCARD = true ∧
        (get_filters_v2 code).matches WILDCARD = false ∧
        (x ≠ WILDCARD → (get_filters code).matches x = (get_filters_v2 code).matches x)) := by
  constructor
  · intro hhead
    obtain ⟨rest, hdata⟩ : ∃ rest, code.data = '0' :: rest := by
      cases hd : code.data with
      | nil => rw [hd] at hhead; cases hhead
      | cons a as =>
        rw [hd] at hhead
        simp only [List.head?_cons, Option.some.injEq] at hhead
        exact ⟨as, by rw [hhead]⟩
    apply Bool.coe_iff_coe.mp
    rw [get_filters_v3_char code x h2, get_filters_v2_char code x h2]
    constructor
    · rintro (hpre | hex | hw)
      · exact Or.inl hpre
      · exact Or.inr hex
      · refine Or.inr ⟨1, le_refl 1, ?_, ?_⟩
        · rw [hdata]
          simp only [List.length_cons]
          omega
        · rw [hw, hdata]
          rfl
    · rintro (hpre | hex)
      · exact Or.inl hpre
      · exact Or.inr (Or.inl hex)
  · intro hhead
    refine ⟨?_, ?_, ?_⟩
    · exact (get_filters_v3_char code WILDCARD h2).mpr (Or.inr (Or.inr rfl))
    · rw [Bool.eq_false_iff]
      intro hm
      rcases (get_filters_v2_char code WILDCARD h2).mp hm with hpre | ⟨k, hk1, hk2, heq⟩
      · cases hd : code.data with
        | nil => exact data_ne_nil_of_ne_empty h1 hd
        | cons a as =>
          rw [hd] at hpre
          rw [show (WILDCARD).data = ['0'] from rfl] at hpre
          rw [cons_isPrefixOf_cons] at hpre
          have ha : a = '0' := by
            have := (Bool.and_eq_true _ _).mp hpre
            exact beq_iff_eq.mp this.1
          exact hhead (by rw [hd, ha]; rfl)
      · cases hd : code.data with
        | nil => exact data_ne_nil_of_ne_empty h1 hd
        | cons a as =>
          rw [hd] at heq
          match k, hk1 with
          | j + 1, _ =>
            rw [List.take_succ_cons] at heq
            rw [show (WILDCARD).data = ['0'] from rfl] at heq
            have ha : a = '0' := (List.cons.injEq _ _ _ _).mp heq |>.1.symm
            exact hhead (by rw [hd, ha]; rfl)
    · intro hx
      apply Bool.coe_iff_coe.mp
      rw [get_filters_v3_char code x h2, get_filters_v2_char code x h2]
      constructor
      · rintro (hpre | hex | hw)
        · exact Or.inl hpre
        · exact Or.inr hex
        · exact absurd hw hx
      · rintro (hpre | hex)
        · exact Or.inl hpre
        · exact Or.inr (Or.inl hex)

/-- Witness for C10 at target code "12" and catalog code "34". -/
theorem filters_v2_v3_relation_witness :
    (("12" : String) ≠ "" ∧ (∀ ch ∈ ("12" : String).data, ch.isDigit = true))
      ∧ ((("12" : String).data.head? = some '0' →
            (get_filters ("12")).matches ("34") = (get_filters_v2 ("12")).matches ("34")) ∧
         (("12" : String).data.head? ≠ some '0' →
            (get_filters ("12")).matches WILDCARD = true ∧
            (get_filters_v2 ("12")).matches WILDCARD = false ∧
            (("34" : String) ≠ WILDCARD →
              (get_filters ("12")).matches ("34") = (get_filters_v2 ("12")).matches ("34")))) :=
  ⟨⟨by decide, by decide⟩, filters_v2_v3_relation ("12") ("34") (by decide) (by decide)⟩



/-- A row either copies all four restriction fields from some candidate object
or is the empty no-restriction row. -/
def tracesTo (objs : List RObject) (r : OutputRow) : Prop :=
  (∃ o ∈ objs, r.restricted_codes = o.hs_code ∧ r.restricted_item = o.item ∧
      r.restriction = o.restriction_text ∧ r.distance = o.distance) ∨
  (r.restricted_codes = "" ∧ r.restricted_item = "" ∧ r.restriction = "" ∧ r.distance = 0)

lemma pyGet_mem {α : Type} (l : List α) (i : ℤ) (a : α) (h : pyGet l i = some a) : a ∈ l := by
  unfold pyGet at h
  split at h
  · exact List.get?_mem h
  · split at h
    · exact List.get?_mem h
    · cases h

lemma choiceLoop_traces (row : InputRow) (objs : List RObject) (tN tR tP : ℚ) (pt ct tt : ℕ) :
    ∀ (toks : List String) (acc rows : List OutputRow),
      (∀ r ∈ acc, tracesTo objs r) →
      choiceLoop row objs tN tR tP pt ct tt toks acc = .ok rows →
      ∀ r ∈ rows, tracesTo objs r := by
  intro toks
  induction toks with
  | nil =>
    intro acc rows hacc heq
    simp only [choiceLoop] at heq
    injection heq with h
    subst h
    exact hacc
  | cons tok rest ih =>
    intro acc rows hacc heq
    simp only [choiceLoop] at heq
    split at heq
    · exact ih acc rows hacc heq
    · split at heq
      · split at heq
        · injection heq with h
          subst h
          intro r hr
          rcases List.mem_append.mp hr with h1 | h1
          · exact hacc r h1
          · rw [List.mem_singleton] at h1
            subst h1
            exact Or.inr ⟨rfl, rfl, rfl, rfl⟩
        · cases heq
      · rename_i z hint
        split at heq
        · cases heq
        · split at heq
          · cases heq
          · rename_i o hget
            refine ih _ rows ?_ heq
            intro r hr
            rcases List.mem_append.mp hr with h1 | h1
            · exact hacc r h1
            · rw [List.mem_singleton] at h1
              subst h1
              exact Or.inl ⟨o, pyGet_mem objs _ o hget, rfl, rfl, rfl, rfl⟩

/-- Unfolding of `process_row` on the branch that calls OpenAI. -/
lemma process_row_nonempty (row : InputRow) (objs : List RObject) (lm : LMResult)
    (tN tR tP : ℚ) (hne : objs ≠ []) (hfin : lm.finish_reason = "stop") :
    process_row row objs lm tN tR tP =
      match choiceLoop row objs tN tR tP lm.prompt_tokens lm.completion_tokens
          lm.total_tokens (tokensOf lm.content) [] with
      | .error e => .error e
      | .ok rows => .ok (rows, fullMetrics lm tN tR tP) := by
  have hlen : ¬ ((objs.map (fun o => o.item)).length = 0) := by
    simp only [List.length_map, List.length_eq_zero]
    exact hne
  have hfin2 : ¬ (lm.finish_reason ≠ "stop") := by
    simp only [ne_eq, hfin, not_true_eq_false, not_false_eq_true]
  unfold process_row
  rw [if_neg hlen, if_neg hfin2]

/-- C5: when disambiguation succeeds, every emitted row either copies its
restriction fields and distance from some supplied candidate or is the empty
no-restriction row — the engine never fabricates a restriction. -/
theorem confirmed_rows_trace_to_candidates (row : InputRow) (objs : List RObject)
    (lm : LMResult) (tN tR tP : ℚ) (rows : List OutputRow) (m : Metrics)
    (hok : process_row row objs lm tN tR tP = .ok (rows, m)) :
    ∀ r ∈ rows, tracesTo objs r := by
  by_cases hne : objs = []
  · subst hne
    have hev : process_row row [] lm tN tR tP =
        .ok ([noRestrictionRow row tN none tP none none none], emptyMetrics tN tP) := rfl
    rw [hev] at hok
    injection hok with h
    injection h with h1 h2
    subst h1
    intro r hr
    rw [List.mem_singleton] at hr
    subst hr
    exact Or.inr ⟨rfl, rfl, rfl, rfl⟩
  · by_cases hfin : lm.finish_reason = "stop"
    · rw [process_row_nonempty row objs lm tN tR tP hne hfin] at hok
      cases hcl : choiceLoop row objs tN tR tP lm.prompt_tokens lm.completion_tokens
          lm.total_tokens (tokensOf lm.content) [] with
      | error e =>
        rw [hcl] at hok
        cases hok
      | ok rows' =>
        rw [hcl] at hok
        injection hok with h
        injection h with h1 h2
        subst h1
        exact choiceLoop_traces row objs tN tR tP lm.prompt_tokens lm.completion_tokens
          lm.total_tokens (tokensOf lm.content) [] rows' (by intro r hr; cases hr) hcl
    · have : process_row row objs lm tN tR tP = .error .incompleteGeneration := by
        have hlen : ¬ ((objs.map (fun o => o.item)).length = 0) := by
          simp only [List.length_map, List.length_eq_zero]
          exact hne
        unfold process_row
        rw [if_neg hlen, if_pos hfin]
      rw [this] at hok
      cases hok

/-- Witness for C5: a run with one candidate chosen by response "1". -/
theorem confirmed_rows_trace_to_candidates_witness :
    tracesTo [sampleObj] (confirmedRow sampleRow sampleObj 1 1 1 10 5 15) :=
  confirmed_rows_trace_to_candidates sampleRow [sampleObj] (lmWith ("1")) 1 1 1
    [confirmedRow sampleRow sampleObj 1 1 1 10 5 15] (fullMetrics (lmWith ("1")) 1 1 1)
    rfl (confirmedRow sampleRow sampleObj 1 1 1 10 5 15) (List.mem_singleton.mpr rfl)

/-- C6: with an empty candidate sequence the engine yields exactly one row
with empty restriction fields and distance 0, retrieval time populated, and
the arbitration time and all token counts absent ("NA"), for every
language-model result — OpenAI is never consulted. -/
theorem empty_candidates_no_restriction (row : InputRow) (lm : LMResult) (tN tR tP : ℚ) :
    process_row row [] lm tN tR tP =
      .ok ([noRestrictionRow row tN none tP none none none], emptyMetrics tN tP) := rfl

/-- C8: a language-model result whose finish reason is not "stop" raises the
incomplete-generation failure whatever the content holds, and no row is
emitted. -/
theorem incomplete_generation_raises (row : InputRow) (objs : List RObject) (lm : LMResult)
    (tN tR tP : ℚ) (hne : objs ≠ []) (hfin : lm.finish_reason ≠ "stop") :
    process_row row objs lm tN tR tP = .error .incompleteGeneration := by
  have hlen : ¬ ((objs.map (fun o => o.item)).length = 0) := by
    simp only [List.length_map, List.length_eq_zero]
    exact hne
  unfold process_row
  rw [if_neg hlen, if_pos hfin]

/-- Witness for C8: one candidate, a truncated generation. -/
theorem incomplete_generation_raises_witness :
    process_row sampleRow [sampleObj]
        { finish_reason := "length", content := "1", prompt_tokens := 10,
          completion_tokens := 5, total_tokens := 15 } 1 1 1 =
      .error .incompleteGeneration :=
  incomplete_generation_raises sampleRow [sampleObj]
    { finish_reason := "length", content := "1", prompt_tokens := 10,
      completion_tokens := 5, total_tokens := 15 } 1 1 1
    (by simp) (by decide)


/-- C1 counterexample: with one candidate and the arbitration response "0",
the engine emits ZERO output rows — the claimed single row with empty
restriction fields never appears (the token "0" is silently skipped and the
loop falls through to `return new_rows` with `new_rows` still empty). -/
theorem zero_response_drops_item :
    (process_row sampleRow [sampleObj] (lmWith ("0")) 1 1 1).map (fun p => p.1.length) =
      Except.ok 0 ∧ (0 : ℕ) ≠ 1 :=
  ⟨rfl, by decide⟩

/-- C1 amended: a response whose sole token is "0" yields zero output rows
(the item disappears from the output), while a response whose sole token is a
recognized none-applies phrase yields exactly one row with empty restriction
fields and distance 0. -/
theorem zero_and_phrase_response_behavior (row : InputRow) (objs : List RObject)
    (lm : LMResult) (tN tR tP : ℚ) (hne : objs ≠ []) (hfin : lm.finish_reason = "stop") :
    (lm.content = "0" →
        process_row row objs lm tN tR tP = .ok ([], fullMetrics lm tN tR tP)) ∧
    (∀ t, tokensOf lm.content = [t] →
        removeChar '.' t ≠ "" → removeChar '.' t ≠ "0" →
        pyInt (removeChar '.' t) = none → nonePhrase (removeChar '.' t) = true →
        process_row row objs lm tN tR tP =
          .ok ([noRestrictionRow row tN (some tR) tP (some lm.prompt_tokens)
                  (some lm.completion_tokens) (some lm.total_tokens)],
               fullMetrics lm tN tR tP)) := by
  constructor
  · intro hc
    rw [process_row_nonempty row objs lm tN tR tP hne hfin, hc]
    rfl
  · intro t htok h1 h2 h3 h4
    rw [process_row_nonempty row objs lm tN tR tP hne hfin, htok]
    have hnskip : ¬ (removeChar '.' t = "" ∨ removeChar '.' t = "0") := by
      rintro (h | h)
      · exact h1 h
      · exact h2 h
    simp only [choiceLoop, if_neg hnskip, h3, if_pos h4, List.nil_append]

/-- Witness for the amended C1: both branches at a concrete run with one
candidate — response "0" and response "No Restrictions Apply." (mixed case). -/
theorem zero_and_phrase_response_behavior_witness :
    process_row sampleRow [sampleObj] (lmWith ("0")) 1 1 1 =
        .ok ([], fullMetrics (lmWith ("0")) 1 1 1) ∧
    process_row sampleRow [sampleObj] (lmWith ("No Restrictions Apply.")) 1 1 1 =
        .ok ([noRestrictionRow sampleRow 1 (some 1) 1 (some 10) (some 5) (some 15)],
             fullMetrics (lmWith ("No Restrictions Apply.")) 1 1 1) :=
  ⟨(zero_and_phrase_response_behavior sampleRow [sampleObj] (lmWith ("0")) 1 1 1
      (by simp) rfl).1 rfl,
   (zero_and_phrase_response_behavior sampleRow [sampleObj]
      (lmWith ("No Restrictions Apply.")) 1 1 1 (by simp) rfl).2
     ("NoRestrictionsApply.") rfl (by decide) (by decide) rfl rfl⟩



lemma choiceLoop_malformed (row : InputRow) (objs : List RObject) (tN tR tP : ℚ)
    (pt ct tt : ℕ) :
    ∀ (toks : List String) (acc : List OutputRow),
      choiceLoop row objs tN tR tP pt ct tt toks acc = .error .malformed →
      ∃ t ∈ toks, removeChar '.' t ≠ "" ∧ removeChar '.' t ≠ "0" ∧
        pyInt (removeChar '.' t) = none ∧ nonePhrase (removeChar '.' t) = false := by
  intro toks
  induction toks with
  | nil =>
    intro acc heq
    cases heq
  | cons tok rest ih =>
    intro acc heq
    simp only [choiceLoop] at heq
    split at heq
    · obtain ⟨t, ht, hp⟩ := ih _ heq
      exact ⟨t, List.mem_cons_of_mem tok ht, hp⟩
    · rename_i hnskip
      split at heq
      · rename_i hint
        split at heq
        · cases heq
        · rename_i hph
          refine ⟨tok, List.mem_cons_self tok rest, ?_, ?_, hint, Bool.eq_false_iff.mpr hph⟩
          · intro h
            exact hnskip (Or.inl h)
          · intro h
            exact hnskip (Or.inr h)
      · rename_i z hint
        split at heq
        · injection heq with h
          cases h
        · split at heq
          · injection heq with h
            cases h
          · obtain ⟨t, ht, hp⟩ := ih _ heq
            exact ⟨t, List.mem_cons_of_mem tok ht, hp⟩

lemma choiceLoop_oob (row : InputRow) (objs : List RObject) (tN tR tP : ℚ)
    (pt ct tt : ℕ) :
    ∀ (toks : List String) (acc : List OutputRow),
      choiceLoop row objs tN tR tP pt ct tt toks acc = .error .outOfBounds →
      ∃ t ∈ toks, ∃ z : ℤ, pyInt (removeChar '.' t) = some z ∧ (objs.length : ℤ) < z := by
  intro toks
  induction toks with
  | nil =>
    intro acc heq
    cases heq
  | cons tok rest ih =>
    intro acc heq
    simp only [choiceLoop] at heq
    split at heq
    · obtain ⟨t, ht, hp⟩ := ih _ heq
      exact ⟨t, List.mem_cons_of_mem tok ht, hp⟩
    · split at heq
      · split at heq
        · cases heq
        · injection heq with h
          cases h
      · rename_i z hint
        split at heq
        · rename_i hbound
          exact ⟨tok, List.mem_cons_self tok rest, z, hint, hbound⟩
        · split at heq
          · injection heq with h
            cases h
          · obtain ⟨t, ht, hp⟩ := ih _ heq
            exact ⟨t, List.mem_cons_of_mem tok ht, hp⟩

/-- C3 counterexample: the token "00" parses as the integer 0, which lies
outside [1, 1], yet with one candidate no out-of-bounds error is raised: the
code only checks the upper bound and `response_objects[0 - 1]` wraps around to
the last candidate, emitting a confirmed row for it. -/
theorem negative_choice_not_flagged :
    process_row sampleRow [sampleObj] (lmWith ("00")) 1 1 1 =
        Except.ok ([confirmedRow sampleRow sampleObj 1 1 1 10 5 15],
          fullMetrics (lmWith ("00")) 1 1 1) ∧
      pyInt ("00") = some 0 ∧ ¬ (1 ≤ (0 : ℤ)) :=
  ⟨rfl, rfl, by decide⟩

/-- C3 amended: a malformed-response error is raised only when some token is
neither empty nor "0" nor an integer nor a none-applies phrase, and an
out-of-bounds error only when some integer token EXCEEDS the candidate count
(integer tokens below 1 are not flagged; they wrap around to index from the
end of the candidate list).  Response "4" with 3 candidates raises the
out-of-bounds error and response "abc" the malformed-response error. -/
theorem parse_error_classification (row : InputRow) (objs : List RObject) (lm : LMResult)
    (tN tR tP : ℚ) (hne : objs ≠ []) (hfin : lm.finish_reason = "stop") :
    (process_row row objs lm tN tR tP = .error .malformed →
        ∃ t ∈ tokensOf lm.content, removeChar '.' t ≠ "" ∧ removeChar '.' t ≠ "0" ∧
          pyInt (removeChar '.' t) = none ∧ nonePhrase (removeChar '.' t) = false) ∧
    (process_row row objs lm tN tR tP = .error .outOfBounds →
        ∃ t ∈ tokensOf lm.content, ∃ z : ℤ,
          pyInt (removeChar '.' t) = some z ∧ (objs.length : ℤ) < z) ∧
    (lm.content = "4" → objs.length = 3 →
        process_row row objs lm tN tR tP = .error .outOfBounds) ∧
    (lm.content = "abc" →
        process_row row objs lm tN tR tP = .error .malformed) := by
  refine ⟨?_, ?_, ?_, ?_⟩
  · intro h
    rw [process_row_nonempty row objs lm tN tR tP hne hfin] at h
    split at h
    · rename_i e hcl
      injection h with h2
      subst h2
      exact choiceLoop_malformed row objs tN tR tP lm.prompt_tokens lm.completion_tokens
        lm.total_tokens (tokensOf lm.content) [] hcl
    · cases h
  · intro h
    rw [process_row_nonempty row objs lm tN tR tP hne hfin] at h
    split at h
    · rename_i e hcl
      injection h with h2
      subst h2
      exact choiceLoop_oob row objs tN tR tP lm.prompt_tokens lm.completion_tokens
        lm.total_tokens (tokensOf lm.content) [] hcl
    · cases h
  · intro hc hlen
    obtain ⟨a, b, c, rfl⟩ := List.length_eq_three.mp hlen
    rw [process_row_nonempty _ _ lm tN tR tP (by simp) hfin, hc]
    rfl
  · intro hc
    obtain ⟨a, t2, rfl⟩ := List.exists_cons_of_ne_nil hne
    rw [process_row_nonempty _ _ lm tN tR tP (by simp) hfin, hc]
    rfl

/-- Witness for the amended C3: three candidates, response "4" (out of
bounds above) and one candidate, response "abc" (malformed). -/
theorem parse_error_classification_witness :
    process_row sampleRow [sampleObj, sampleObj2, sampleObj3] (lmWith ("4")) 1 1 1 =
        .error .outOfBounds ∧
      process_row sampleRow [sampleObj] (lmWith ("abc")) 1 1 1 = .error .malformed :=
  ⟨(parse_error_classification sampleRow [sampleObj, sampleObj2, sampleObj3] (lmWith ("4"))
      1 1 1 (by simp) rfl).2.2.1 rfl rfl,
   (parse_error_classification sampleRow [sampleObj] (lmWith ("abc"))
      1 1 1 (by simp) rfl).2.2.2 rfl⟩



lemma choiceLoop_append (row : InputRow) (objs : List RObject) (tN tR tP : ℚ)
    (pt ct tt : ℕ) :
    ∀ (pre l : List String) (acc acc' : List OutputRow),
      (∀ u ∈ pre, nonePhrase (removeChar '.' u) = false) →
      choiceLoop row objs tN tR tP pt ct tt pre acc = .ok acc' →
      choiceLoop row objs tN tR tP pt ct tt (pre ++ l) acc =
        choiceLoop row objs tN tR tP pt ct tt l acc' := by
  intro pre
  induction pre with
  | nil =>
    intro l acc acc' hpre heq
    injection heq with h
    subst h
    rw [List.nil_append]
  | cons tok rest ih =>
    intro l acc acc' hpre heq
    rw [List.cons_append]
    simp only [choiceLoop] at heq ⊢
    by_cases hskip : removeChar '.' tok = "" ∨ removeChar '.' tok = "0"
    · rw [if_pos hskip] at heq ⊢
      exact ih l acc acc' (fun u hu => hpre u (List.mem_cons_of_mem tok hu)) heq
    · rw [if_neg hskip] at heq ⊢
      cases hint : pyInt (removeChar '.' tok) with
      | none =>
        simp only [hint] at heq ⊢
        have hph : nonePhrase (removeChar '.' tok) = false :=
          hpre tok (List.mem_cons_self tok rest)
        rw [if_neg (by rw [hph]; exact Bool.false_ne_true)] at heq
        cases heq
      | some z =>
        simp only [hint] at heq ⊢
        by_cases hbound : (objs.length : ℤ) < z
        · rw [if_pos hbound] at heq
          cases heq
        · rw [if_neg hbound] at heq ⊢
          cases hget : pyGet objs (z - 1) with
          | none =>
            simp only [hget] at heq
            cases heq
          | some o =>
            simp only [hget] at heq ⊢
            exact ih l _ acc' (fun u hu => hpre u (List.mem_cons_of_mem tok hu)) heq

/-- C4 counterexample: the response "1, does not apply" over one candidate
emits a ConfirmedRestriction row (restricted_item "knives") for the integer
token preceding the phrase, followed by the empty row — the phrase does not
suppress restrictions already confirmed. -/
theorem phrase_keeps_prior_confirmations :
    (process_row sampleRow [sampleObj] (lmWith ("1, does not apply")) 1 1 1).map
        (fun p => p.1.map (fun r => r.restricted_item)) =
      Except.ok (["knives", ""]) ∧ ("knives" : String) ≠ "" :=
  ⟨rfl, by decide⟩

/-- C4 amended: a none-applies phrase token ends processing at that point —
tokens after it are discarded and the empty no-restriction row is appended —
but every ConfirmedRestriction row already emitted for integer tokens before
the phrase is kept. -/
theorem phrase_short_circuit_behavior (row : InputRow) (objs : List RObject)
    (lm : LMResult) (tN tR tP : ℚ) (pre : List String) (t : String)
    (post : List String) (acc : List OutputRow)
    (hne : objs ≠ []) (hfin : lm.finish_reason = "stop")
    (htok : tokensOf lm.content = pre ++ t :: post)
    (hpre : ∀ u ∈ pre, nonePhrase (removeChar '.' u) = false)
    (hloop : choiceLoop row objs tN tR tP lm.prompt_tokens lm.completion_tokens
        lm.total_tokens pre [] = .ok acc)
    (h1 : removeChar '.' t ≠ "") (h2 : removeChar '.' t ≠ "0")
    (h3 : pyInt (removeChar '.' t) = none) (h4 : nonePhrase (removeChar '.' t) = true) :
    process_row row objs lm tN tR tP =
      .ok (acc ++ [noRestrictionRow row tN (some tR) tP (some lm.prompt_tokens)
              (some lm.completion_tokens) (some lm.total_tokens)],
           fullMetrics lm tN tR tP) := by
  rw [process_row_nonempty row objs lm tN tR tP hne hfin, htok,
    choiceLoop_append row objs tN tR tP lm.prompt_tokens lm.completion_tokens
      lm.total_tokens pre (t :: post) [] acc hpre hloop]
  have hnskip : ¬ (removeChar '.' t = "" ∨ removeChar '.' t = "0") := by
    rintro (h | h)
    · exact h1 h
    · exact h2 h
  simp only [choiceLoop, if_neg hnskip, h3, if_pos h4]

/-- Witness for the amended C4: response "1,doesnotapply,9" over one
candidate keeps the confirmed row for token "1", appends the empty row, and
discards the (out-of-range!) trailing token "9". -/
theorem phrase_short_circuit_behavior_witness :
    process_row sampleRow [sampleObj] (lmWith ("1,doesnotapply,9")) 1 1 1 =
      .ok ([confirmedRow sampleRow sampleObj 1 1 1 10 5 15,
            noRestrictionRow sampleRow 1 (some 1) 1 (some 10) (some 5) (some 15)],
           fullMetrics (lmWith ("1,doesnotapply,9")) 1 1 1) :=
  phrase_short_circuit_behavior sampleRow [sampleObj] (lmWith ("1,doesnotapply,9")) 1 1 1
    (["1"]) ("doesnotapply") (["9"]) ([confirmedRow sampleRow sampleObj 1 1 1 10 5 15])
    (by simp) rfl rfl (by decide) rfl (by decide) (by decide) rfl rfl



lemma expectedRows_nil (row : InputRow) (objs : List RObject) (tN tR tP : ℚ)
    (pt ct tt : ℕ) : expectedRows row objs tN tR tP pt ct tt [] = [] := rfl

lemma expectedRows_cons_skip (row : InputRow) (objs : List RObject) (tN tR tP : ℚ)
    (pt ct tt : ℕ) (tok : String) (rest : List String)
    (h : removeChar '.' tok = "" ∨ removeChar '.' tok = "0") :
    expectedRows row objs tN tR tP pt ct tt (tok :: rest) =
      expectedRows row objs tN tR tP pt ct tt rest := by
  unfold expectedRows
  rw [List.filterMap_cons]
  simp only [if_pos h]

lemma expectedRows_cons_sel (row : InputRow) (objs : List RObject) (tN tR tP : ℚ)
    (pt ct tt : ℕ) (tok : String) (rest : List String) (z : ℤ) (o : RObject)
    (hns : ¬ (removeChar '.' tok = "" ∨ removeChar '.' tok = "0"))
    (hz : pyInt (removeChar '.' tok) = some z)
    (hget : pyGet objs (z - 1) = some o) :
    expectedRows row objs tN tR tP pt ct tt (tok :: rest) =
      confirmedRow row o tN tR tP pt ct tt :: expectedRows row objs tN tR tP pt ct tt rest := by
  unfold expectedRows
  rw [List.filterMap_cons]
  simp only [if_neg hns, hz, hget]
  rfl

lemma pyInt_empty : pyInt ("") = none := rfl

lemma pyInt_zero : pyInt ("0") = some 0 := rfl

lemma choiceLoop_good (row : InputRow) (objs : List RObject) (tN tR tP : ℚ)
    (pt ct tt : ℕ) :
    ∀ (toks : List String) (acc : List OutputRow),
      (∀ t ∈ toks, removeChar '.' t = "" ∨ removeChar '.' t = "0" ∨
          ∃ z : ℤ, pyInt (removeChar '.' t) = some z ∧ 1 ≤ z ∧ z ≤ (objs.length : ℤ)) →
      choiceLoop row objs tN tR tP pt ct tt toks acc =
        .ok (acc ++ expectedRows row objs tN tR tP pt ct tt toks) := by
  intro toks
  induction toks with
  | nil =>
    intro acc _
    rw [expectedRows_nil, List.append_nil]
    rfl
  | cons tok rest ih =>
    intro acc hgood
    have hrest : ∀ t ∈ rest, removeChar '.' t = "" ∨ removeChar '.' t = "0" ∨
        ∃ z : ℤ, pyInt (removeChar '.' t) = some z ∧ 1 ≤ z ∧ z ≤ (objs.length : ℤ) :=
      fun t ht => hgood t (List.mem_cons_of_mem tok ht)
    rcases hgood tok (List.mem_cons_self tok rest) with h | h | ⟨z, hz, hz1, hz2⟩
    · simp only [choiceLoop, if_pos (Or.inl h),
        expectedRows_cons_skip row objs tN tR tP pt ct tt tok rest (Or.inl h)]
      exact ih acc hrest
    · simp only [choiceLoop, if_pos (Or.inr h),
        expectedRows_cons_skip row objs tN tR tP pt ct tt tok rest (Or.inr h)]
      exact ih acc hrest
    · have hns : ¬ (removeChar '.' tok = "" ∨ removeChar '.' tok = "0") := by
        rintro (h | h)
        · rw [h, pyInt_empty] at hz
          cases hz
        · rw [h, pyInt_zero] at hz
          injection hz with hz0
          omega
      have hnb : ¬ ((objs.length : ℤ) < z) := by omega
      have hlt : (z - 1).toNat < objs.length := by omega
      have hget : pyGet objs (z - 1) = some (objs.get ⟨(z - 1).toNat, hlt⟩) := by
        unfold pyGet
        rw [if_pos (by omega : (0 : ℤ) ≤ z - 1)]
        exact List.get?_eq_get hlt
      simp only [choiceLoop, if_neg hns, hz, if_neg hnb, hget,
        expectedRows_cons_sel row objs tN tR tP pt ct tt tok rest z _ hns hz hget]
      rw [ih _ hrest, List.append_assoc]
      rfl

/-- C7 counterexample: the token ".1" carries no trailing period, so the
claimed normalization leaves it a non-integer; the code nevertheless removes
the leading period as well and resolves it to candidate 1, emitting a
confirmed row. -/
theorem period_removal_not_only_trailing :
    (process_row sampleRow [sampleObj] (lmWith (".1")) 1 1 1).map
        (fun p => p.1.map (fun r => r.restricted_item)) = Except.ok (["knives"]) ∧
      removeChar '.' (".1") = "1" ∧ (".1" : String).data.getLast? = some '1' :=
  ⟨rfl, rfl, rfl⟩

/-- C7 amended: parsing removes newlines and spaces, splits on commas,
normalizes each token by removing ALL periods (not only trailing ones),
discards tokens that normalize to "" or "0", and — whenever every token is
such a discard or an integer within [1, candidate count] — resolves each
surviving integer token i to the i-th candidate (1-based) in token order,
duplicates preserved. -/
theorem parse_pipeline_characterization (row : InputRow) (objs : List RObject)
    (lm : LMResult) (tN tR tP : ℚ) (hne : objs ≠ []) (hfin : lm.finish_reason = "stop")
    (hgood : ∀ t ∈ tokensOf lm.content, removeChar '.' t = "" ∨ removeChar '.' t = "0" ∨
        ∃ z : ℤ, pyInt (removeChar '.' t) = some z ∧ 1 ≤ z ∧ z ≤ (objs.length : ℤ)) :
    process_row row objs lm tN tR tP =
      .ok (expectedRows row objs tN tR tP lm.prompt_tokens lm.completion_tokens
              lm.total_tokens (tokensOf lm.content),
           fullMetrics lm tN tR tP) := by
  rw [process_row_nonempty row objs lm tN tR tP hne hfin,
    choiceLoop_good row objs tN tR tP lm.prompt_tokens lm.completion_tokens
      lm.total_tokens (tokensOf lm.content) [] hgood]
  rfl

/-- Witness for the amended C7: three candidates and response "1,3" yield the
two confirmed rows for candidates 1 and 3, in that order. -/
theorem parse_pipeline_characterization_witness :
    process_row sampleRow [sampleObj, sampleObj2, sampleObj3] (lmWith ("1,3")) 1 1 1 =
        .ok (expectedRows sampleRow [sampleObj, sampleObj2, sampleObj3] 1 1 1 10 5 15
                (tokensOf ("1,3")),
             fullMetrics (lmWith ("1,3")) 1 1 1) ∧
      expectedRows sampleRow [sampleObj, sampleObj2, sampleObj3] 1 1 1 10 5 15
          (tokensOf ("1,3")) =
        [confirmedRow sampleRow sampleObj 1 1 1 10 5 15,
         confirmedRow sampleRow sampleObj3 1 1 1 10 5 15] :=
  ⟨parse_pipeline_characterization sampleRow [sampleObj, sampleObj2, sampleObj3]
      (lmWith ("1,3")) 1 1 1 (by simp) rfl
      (by
        intro t ht
        have ht2 : t ∈ (["1", "3"] : List String) := ht
        simp only [List.mem_cons, List.not_mem_nil, or_false] at ht2
        rcases ht2 with rfl | rfl
        · exact Or.inr (Or.inr ⟨1, rfl, by decide, by decide⟩)
        · exact Or.inr (Or.inr ⟨3, rfl, by decide, by decide⟩)),
   rfl⟩



/-- A fully-populated per-item metrics tuple. -/
def sampleMetrics : Metrics :=
  { time_to_get_neighbors := 1, time_to_get_response := some 2, time_to_process_row := 3,
    prompt_tokens := some 10, completion_tokens := some 5, total_tokens := some 15 }

lemma gatherQ_eq_filterMap (f : Metrics → Option ℚ) :
    ∀ ms : List Metrics, gatherQ f ms = ms.filterMap f := by
  intro ms
  induction ms with
  | nil => rfl
  | cons m rest ih =>
    rw [List.filterMap_cons]
    cases hf : f m with
    | none => simp only [gatherQ, hf, ih]
    | some x => simp only [gatherQ, hf, ih]

lemma gatherN_eq_filterMap (f : Metrics → Option ℕ) :
    ∀ ms : List Metrics, gatherN f ms = ms.filterMap f := by
  intro ms
  induction ms with
  | nil => rfl
  | cons m rest ih =>
    rw [List.filterMap_cons]
    cases hf : f m with
    | none => simp only [gatherN, hf, ih]
    | some x => simp only [gatherN, hf, ih]

/-- C9: every arbitration-time and token aggregate of a batch equals the
arithmetic mean (sum over count) of only the populated per-item values, and
an item whose metrics carry the absent marker in all arbitration fields — as
produced when the arbitration service is never invoked — contributes to none
of those aggregates. -/
theorem batch_aggregates_mean_of_populated (ms : List Metrics) :
    ((ms.filterMap (fun m => m.time_to_get_response) ≠ [] →
        (batchReport ms).avg_time_to_get_response =
          (ms.filterMap (fun m => m.time_to_get_response)).sum /
            ((ms.filterMap (fun m => m.time_to_get_response)).length : ℚ)) ∧
     (ms.filterMap (fun m => m.prompt_tokens) ≠ [] →
        (batchReport ms).avg_prompt_tokens =
          (((ms.filterMap (fun m => m.prompt_tokens)).sum : ℕ) : ℚ) /
            ((ms.filterMap (fun m => m.prompt_tokens)).length : ℚ)) ∧
     (ms.filterMap (fun m => m.completion_tokens) ≠ [] →
        (batchReport ms).avg_completion_tokens =
          (((ms.filterMap (fun m => m.completion_tokens)).sum : ℕ) : ℚ) /
            ((ms.filterMap (fun m => m.completion_tokens)).length : ℚ)) ∧
     (ms.filterMap (fun m => m.total_tokens) ≠ [] →
        (batchReport ms).avg_total_tokens =
          (((ms.filterMap (fun m => m.total_tokens)).sum : ℕ) : ℚ) /
            ((ms.filterMap (fun m => m.total_tokens)).length : ℚ))) ∧
    (∀ tN tP : ℚ,
        (batchReport (emptyMetrics tN tP :: ms)).avg_time_to_get_response =
            (batchReport ms).avg_time_to_get_response ∧
        (batchReport (emptyMetrics tN tP :: ms)).avg_prompt_tokens =
            (batchReport ms).avg_prompt_tokens ∧
        (batchReport (emptyMetrics tN tP :: ms)).avg_completion_tokens =
            (batchReport ms).avg_completion_tokens ∧
        (batchReport (emptyMetrics tN tP :: ms)).avg_total_tokens =
            (batchReport ms).avg_total_tokens) := by
  constructor
  · refine ⟨fun _ => ?_, fun _ => ?_, fun _ => ?_, fun _ => ?_⟩
    · show avgQ (gatherQ (fun m => m.time_to_get_response) ms) = _
      rw [gatherQ_eq_filterMap]
      rfl
    · show avgN (gatherN (fun m => m.prompt_tokens) ms) = _
      rw [gatherN_eq_filterMap]
      rfl
    · show avgN (gatherN (fun m => m.completion_tokens) ms) = _
      rw [gatherN_eq_filterMap]
      rfl
    · show avgN (gatherN (fun m => m.total_tokens) ms) = _
      rw [gatherN_eq_filterMap]
      rfl
  · intro tN tP
    exact ⟨rfl, rfl, rfl, rfl⟩

/-- Witness for C9 on a singleton batch plus one never-invoked item. -/
theorem batch_aggregates_mean_of_populated_witness :
    (batchReport ([sampleMetrics])).avg_time_to_get_response =
        (([sampleMetrics] : List Metrics).filterMap (fun m => m.time_to_get_response)).sum /
          ((([sampleMetrics] : List Metrics).filterMap
              (fun m => m.time_to_get_response)).length : ℚ) ∧
    (batchReport ([sampleMetrics])).avg_total_tokens =
        (((([sampleMetrics] : List Metrics).filterMap (fun m => m.total_tokens)).sum : ℕ) : ℚ) /
          ((([sampleMetrics] : List Metrics).filterMap (fun m => m.total_tokens)).length : ℚ) ∧
    (batchReport (emptyMetrics 7 9 :: [sampleMetrics])).avg_time_to_get_response =
        (batchReport ([sampleMetrics])).avg_time_to_get_response :=
  ⟨(batch_aggregates_mean_of_populated ([sampleMetrics])).1.1 (by decide),
   (batch_aggregates_mean_of_populated ([sampleMetrics])).1.2.2.2 (by decide),
   ((batch_aggregates_mean_of_populated ([sampleMetrics])).2 7 9).1⟩

end RestrictionSearch
